import Mathlib

/-!
Verification of the flashsim repository core: the bounded activity log and
its windowed throughput query (src/benchmark/lt-bench.cpp), the benchmark
address generators, and the standalone server request dispatch loop
(src/standalone/flashsim.cpp), shallowly embedded in Lean 4.

Machine integers are modelled as Nat (with explicit mod 2^64 where uint64
wraparound matters) and C doubles as exact rationals.
-/

namespace FlashSimSpec

namespace LtBench

/-- A completed-IO record of the device log (struct log_entry in
lt-bench.cpp: start_time_us, finish_time_us, bytes). -/
structure LogEntry where
  start_time_us : Nat
  finish_time_us : Nat
  bytes : Nat
deriving Repr, DecidableEq

/-- Capacity of the device log (DEVICE_LOG_LENGTH in lt-bench.cpp). -/
def DEVICE_LOG_LENGTH : Nat := 120000

/-- log_push_entry of lt-bench.cpp: push_back the entry, then pop_front
once if the size exceeds DEVICE_LOG_LENGTH. The deque is modelled as a
List with its head at the deque front. -/
def log_push_entry (log : List LogEntry) (e : LogEntry) : List LogEntry :=
  let log2 := log ++ [e]
  if DEVICE_LOG_LENGTH < log2.length then log2.tail else log2

/-- The log state after pushing a sequence of entries into an initially
empty log, in order. -/
def log_push_all (es : List LogEntry) : List LogEntry :=
  es.foldl log_push_entry []

/-- The backward scan of log_query_throughput (lt-bench.cpp lines
170-176), applied to the reversed deque (most recent entry first): stop at
the first entry whose finish time is ≤ begin_time_us, otherwise add
bytes / 1024 kilobytes for every entry whose finish time is ≤
end_time_us. -/
def scan_kilobytes (begin_us end_us : Nat) : List LogEntry → ℚ
  | [] => 0
  | e :: rest =>
    if e.finish_time_us ≤ begin_us then 0
    else (if e.finish_time_us ≤ end_us then (e.bytes : ℚ) / 1024 else 0)
         + scan_kilobytes begin_us end_us rest

/-- 2^64, the modulus of uint64 arithmetic. -/
def U64 : Nat := 2 ^ 64

/-- uint64 subtraction a - b, wrapping modulo 2^64. -/
def u64sub (a b : Nat) : Nat := (a % U64 + (U64 - b % U64)) % U64

/-- log_query_throughput of lt-bench.cpp: the backward-scan kilobyte sum
times 1000000, divided by the uint64 difference end - begin (the C code
converts that difference to double for the division; doubles are modelled
as exact rationals). The List head models the deque front (oldest
entry). -/
def log_query_throughput (log : List LogEntry) (begin_us end_us : Nat) : ℚ :=
  (scan_kilobytes begin_us end_us log.reverse * 1000000)
    / (u64sub end_us begin_us : ℚ)

/-- Modelled from the spec (refinement reference): the naive full-scan
byte sum over all entries whose finish time lies in the half-open window
(begin_us, end_us]. -/
def window_bytes (begin_us end_us : Nat) (log : List LogEntry) : Nat :=
  ((log.filter (fun x =>
      decide (begin_us < x.finish_time_us ∧ x.finish_time_us ≤ end_us))).map
    (fun x => x.bytes)).sum

/-- The log's entries have nondecreasing finish times (the time-order
maintained by the single submission thread). -/
def FinishSorted (log : List LogEntry) : Prop :=
  log.Pairwise (fun x y => x.finish_time_us ≤ y.finish_time_us)

/-- A small concrete log used to exercise the query theorems. -/
def demoLog : List LogEntry :=
  [⟨0, 1, 1024⟩, ⟨0, 5, 2048⟩, ⟨2, 10, 4096⟩]

/-- Usable flash capacity in bytes (lt-bench.cpp, la-bench.cpp:
FLASH_SPACE, 40% of the 160 MiB device). -/
def FLASH_SPACE : Nat := 40263680

/-- Device page size in bytes (PAGE_SIZE in the benchmark clients). -/
def PAGE_SIZE : Nat := 4096

/-- One step of sequential address generation (bench_seq_read /
bench_seq_write): addr = (addr + PAGE_SIZE) % FLASH_SPACE. -/
def seq_next_addr (addr : Nat) : Nat := (addr + PAGE_SIZE) % FLASH_SPACE

/-- Address carried by the n-th sequential request, starting from 0. -/
def seq_addr : Nat → Nat
  | 0 => 0
  | n + 1 => seq_next_addr (seq_addr n)

/-- Inclusive upper bound of the uniform_int_distribution used by
bench_rnd_read / bench_rnd_write (both in lt-bench.cpp and la-bench.cpp):
addr_dist(0, FLASH_SPACE / PAGE_SIZE). std::uniform_int_distribution draws
from the closed range [0, FLASH_SPACE / PAGE_SIZE]. -/
def addr_dist_hi : Nat := FLASH_SPACE / PAGE_SIZE

/-- Address generated by the random benchmarks from a distribution draw k:
PAGE_SIZE * k. -/
def rnd_addr (k : Nat) : Nat := PAGE_SIZE * k

end LtBench

namespace Flashsim

/-- Exact length of the wire request header (flashsim.cpp). -/
def REQ_HEADER_LENGTH : Nat := 24

/-- Direction value for reads. -/
def DIR_READ : Nat := 0

/-- Direction value for writes. -/
def DIR_WRITE : Nat := 1

/-- Decoded request header (struct req_header of flashsim.cpp). -/
structure ReqHeader where
  direction : Nat
  addr : Nat
  size : Nat
  start_time_us : Nat
deriving Repr, DecidableEq

/-- Outcome of the header-read step of request_loop. -/
inductive HeaderReadResult where
  | closed
  | fatal (msg : String)
  | proceed
deriving Repr, DecidableEq

/-- Header-read step of request_loop (flashsim.cpp lines 183-188), as a
function of the byte count returned by read(): 0 breaks out of the loop
(orderly close), any other count different from REQ_HEADER_LENGTH raises
the fatal error, a full header proceeds to validation. -/
def header_read_step (rbytes : Int) : HeaderReadResult :=
  if rbytes = 0 then .closed
  else if rbytes ≠ (REQ_HEADER_LENGTH : Int) then
    .fatal "request header wrong length"
  else .proceed

/-- Page-rounded buffer size (flashsim.cpp lines 207-209): header->size
rounded up to the next whole multiple of the page size P. -/
def round_up_size (P s : Nat) : Nat :=
  let remainder := s % P
  if remainder = 0 then s else s + P - remainder

/-- Direction of a device-collaborator invocation. -/
inductive Direction where
  | read
  | write
deriving Repr, DecidableEq

/-- A device-collaborator invocation (process_read / process_write):
page-aligned address and page count derived from the rounded size, and,
for writes with data enabled, the byte length of the buffer handed
over (buf_len = none models passing NULL). -/
structure DeviceCall where
  dir : Direction
  page_addr : Nat
  page_count : Nat
  buf_len : Option Nat
deriving Repr, DecidableEq

/-- Response actions of a successful iteration: the byte count of the
read-payload message written back to the peer (none when no payload
message is sent) and the 8-byte timing value. -/
structure RespPlan where
  payload_len : Option Nat
  time_value : Nat
deriving Repr, DecidableEq

/-- Processing-time response step (flashsim.cpp lines 260-263): fatal when
time_used_ms ≤ 0, otherwise the 8-byte value written back is
(unsigned long)(time_used_ms * 1000), i.e. the millisecond time truncated
to whole microseconds. -/
def respond_timing (time_used_ms : ℚ) : Except String Nat :=
  if time_used_ms ≤ 0 then Except.error "negative processing time"
  else Except.ok (⌊time_used_ms * 1000⌋).toNat

/-- Outcome of one request_loop iteration body: a fatal error raised
before the device collaborator is invoked, a fatal error raised after the
invocation, or a completed iteration with its response actions. -/
inductive StepOutcome where
  | fatal_pre (msg : String)
  | fatal_post (call : DeviceCall) (msg : String)
  | done (call : DeviceCall) (resp : RespPlan)
deriving Repr, DecidableEq

/-- One iteration body of request_loop after a full 24-byte header was
read (flashsim.cpp lines 190-267), parametrised by the device page size P,
the compile-time PAGE_ENABLE_DATA toggle, the decoded header, and the
processing time reported by the device collaborator (a double, modelled
as an exact rational). Validation failures are fatal_pre; afterwards the
collaborator call is recorded, and the timing response decides between
fatal_post and done. -/
def request_step (P : Nat) (pageEnableData : Bool) (h : ReqHeader)
    (time_used_ms : ℚ) : StepOutcome :=
  if h.size ≤ 0 then .fatal_pre "request header invalid size"
  else if ¬ h.addr % P = 0 then .fatal_pre "request unaligned logical address"
  else
    let size := round_up_size P h.size
    let call : DeviceCall :=
      if h.direction = DIR_READ then
        { dir := .read, page_addr := h.addr / P, page_count := size / P,
          buf_len := none }
      else
        { dir := .write, page_addr := h.addr / P, page_count := size / P,
          buf_len := if pageEnableData then some size else none }
    match respond_timing time_used_ms with
    | Except.error msg => .fatal_post call msg
    | Except.ok v =>
        .done call
          { payload_len :=
              if h.direction = DIR_READ ∧ pageEnableData then some h.size
              else none,
            time_value := v }

/-- The device-collaborator call made by a dispatch outcome, if any. -/
def step_call : StepOutcome → Option DeviceCall
  | .fatal_pre _ => none
  | .fatal_post c _ => some c
  | .done c _ => some c

/-- r is the least multiple of P that is at least s. -/
def IsLeastPageMultiple (P s r : Nat) : Prop :=
  P ∣ r ∧ s ≤ r ∧ ∀ m, P ∣ m → s ≤ m → r ≤ m

end Flashsim

end FlashSimSpec

namespace FlashSimSpec

namespace LtBench

/-- Helper: pushing onto the last-C-entries view keeps the
last-C-entries view. -/
theorem log_push_entry_drop (es : List LogEntry) (e : LogEntry) :
    log_push_entry (es.drop (es.length - DEVICE_LOG_LENGTH)) e
      = (es ++ [e]).drop ((es ++ [e]).length - DEVICE_LOG_LENGTH) := by
  set C := DEVICE_LOG_LENGTH with hC
  have hCpos : 0 < C := by
    rw [hC]; decide
  set n := es.length with hn
  rcases Nat.lt_or_ge n C with hlt | hge
  · have h1 : n - C = 0 := Nat.sub_eq_zero_of_le (Nat.le_of_lt hlt)
    have h2 : (es ++ [e]).length - C = 0 := by
      simp only [List.length_append, List.length_singleton]
      omega
    rw [h1, h2, List.drop_zero, List.drop_zero]
    unfold log_push_entry
    have hlen : (es ++ [e]).length = n + 1 := by
      simp [hn]
    rw [if_neg]
    rw [hlen]
    omega
  · have hdroplen : (es.drop (n - C)).length = C := by
      rw [List.length_drop]
      omega
    unfold log_push_entry
    rw [if_pos]
    · have htail : (es.drop (n - C) ++ [e]).tail
          = (es.drop (n - C)).tail ++ [e] := by
        rcases h : es.drop (n - C) with _ | ⟨a, l⟩
        · exfalso
          have := hdroplen
          rw [h] at this
          simp only [List.length_nil] at this
          omega
        · simp
      rw [htail]
      have htail2 : (es.drop (n - C)).tail = es.drop (n - C + 1) := by
        rw [← List.drop_one, List.drop_drop]
      rw [htail2]
      have hlen2 : (es ++ [e]).length - C = n - C + 1 := by
        simp only [List.length_append, List.length_singleton]
        omega
      rw [hlen2]
      have hle : n - C + 1 ≤ es.length := by omega
      rw [List.drop_append_of_le_length hle]
    · rw [List.length_append, hdroplen]
      simp

/-- Claim C2: starting from an empty log, after every sequence of
log_push_entry calls the log holds at most DEVICE_LOG_LENGTH entries, and
the retained entries are exactly the (at most) DEVICE_LOG_LENGTH most
recently appended ones in append order: the state equals the appended
sequence with its oldest excess entries dropped from the head. -/
theorem log_push_bound_retention (es : List LogEntry) :
    (log_push_all es).length ≤ DEVICE_LOG_LENGTH ∧
    log_push_all es = es.drop (es.length - DEVICE_LOG_LENGTH) := by
  have key : log_push_all es = es.drop (es.length - DEVICE_LOG_LENGTH) := by
    induction es using List.reverseRecOn with
    | nil => simp [log_push_all]
    | append_singleton l a ih =>
      unfold log_push_all
      rw [List.foldl_append]
      simp only [List.foldl_cons, List.foldl_nil]
      unfold log_push_all at ih
      rw [ih]
      exact log_push_entry_drop l a
  refine ⟨?_, key⟩
  rw [key, List.length_drop]
  omega

end LtBench

end FlashSimSpec

namespace FlashSimSpec

namespace LtBench

/-- Helper: on a list whose finish times are nonincreasing (most recent
entry first), the early-stopping scan equals the full filter-sum over the
window, in kilobytes. -/
theorem scan_kilobytes_eq_window (b e : Nat) (l : List LogEntry)
    (hs : l.Pairwise (fun x y => y.finish_time_us ≤ x.finish_time_us)) :
    scan_kilobytes b e l = (window_bytes b e l : ℚ) / 1024 := by
  induction l with
  | nil => simp [scan_kilobytes, window_bytes]
  | cons a rest ih =>
    rw [List.pairwise_cons] at hs
    obtain ⟨hhead, htail⟩ := hs
    by_cases hb : a.finish_time_us ≤ b
    · have hfilter : (a :: rest).filter (fun x =>
          decide (b < x.finish_time_us ∧ x.finish_time_us ≤ e)) = [] := by
        apply List.filter_eq_nil_iff.mpr
        intro x hx
        rcases List.mem_cons.mp hx with hxa | hxr
        · subst hxa
          simp only [decide_eq_true_eq, not_and, not_le]
          omega
        · have := hhead x hxr
          simp only [decide_eq_true_eq, not_and, not_le]
          omega
      unfold scan_kilobytes
      rw [if_pos hb]
      unfold window_bytes
      rw [hfilter]
      simp
    · unfold scan_kilobytes
      rw [if_neg hb]
      unfold window_bytes
      rw [List.filter_cons]
      by_cases he : a.finish_time_us ≤ e
      · have hcond : (decide (b < a.finish_time_us ∧ a.finish_time_us ≤ e))
            = true := by
          simp only [decide_eq_true_eq]
          omega
        rw [if_pos he, hcond, if_pos rfl]
        rw [ih htail]
        unfold window_bytes
        push_cast
        rw [List.map_cons, List.map_cons, List.sum_cons]
        ring
      · have hcond : (decide (b < a.finish_time_us ∧ a.finish_time_us ≤ e))
            = false := by
          simp only [decide_eq_false_iff_not, not_and, not_le]
          omega
        rw [if_neg he, hcond]
        simp only [Bool.false_eq_true, if_false]
        rw [ih htail]
        unfold window_bytes
        ring

/-- Helper: for a log with nondecreasing finish times, the backward scan
over the reversed log equals the naive window byte sum divided by 1024. -/
theorem scan_reverse_eq_window (b e : Nat) (log : List LogEntry)
    (hsorted : FinishSorted log) :
    scan_kilobytes b e log.reverse = (window_bytes b e log : ℚ) / 1024 := by
  have hrev : (log.reverse).Pairwise
      (fun x y => y.finish_time_us ≤ x.finish_time_us) := by
    rw [List.pairwise_reverse]
    exact hsorted
  rw [scan_kilobytes_eq_window b e _ hrev]
  congr 2
  unfold window_bytes
  rw [List.filter_reverse, List.map_reverse, List.sum_reverse]

/-- Claim C9: for every activity log whose entries have nondecreasing
finish times, the backward scan used by log_query_throughput (stopping at
the first entry with finishTime ≤ beginTime) computes the same byte sum as
a naive full scan over all entries with finishTime in (beginTime,
endTime]. -/
theorem backward_scan_refines_full_scan (b e : Nat) (log : List LogEntry)
    (hsorted : FinishSorted log) :
    scan_kilobytes b e log.reverse = (window_bytes b e log : ℚ) / 1024 :=
  scan_reverse_eq_window b e log hsorted

/-- Witness for C9 at a concrete sorted log and window. -/
theorem backward_scan_refines_full_scan_witness :
    scan_kilobytes 1 5 demoLog.reverse = (window_bytes 1 5 demoLog : ℚ) / 1024 :=
  backward_scan_refines_full_scan 1 5 demoLog (by unfold FinishSorted; decide)

/-- Claim C1: for every log with nondecreasing finish times and every
window with beginTime < endTime (both in uint64 range),
log_query_throughput returns ((sum of byte counts of exactly the entries
with finishTime in (beginTime, endTime]) / 1024) * 1000000 /
(endTime - beginTime); entries with finishTime ≤ beginTime or
finishTime > endTime contribute nothing (window_bytes filters on
beginTime < finishTime ∧ finishTime ≤ endTime). -/
theorem log_query_throughput_window_sum (log : List LogEntry) (b e : Nat)
    (hsorted : FinishSorted log) (hbe : b < e) (he : e < U64) :
    log_query_throughput log b e
      = ((window_bytes b e log : ℚ) / 1024) * 1000000 / ((e : ℚ) - (b : ℚ)) := by
  unfold log_query_throughput
  have hdiff : u64sub e b = e - b := by
    unfold u64sub U64 at *
    omega
  rw [hdiff, scan_reverse_eq_window b e log hsorted]
  have hcast : ((e - b : Nat) : ℚ) = (e : ℚ) - (b : ℚ) :=
    Nat.cast_sub (Nat.le_of_lt hbe)
  rw [hcast]

/-- Witness for C1 at the concrete demo log and window (1, 5]. -/
theorem log_query_throughput_window_sum_witness :
    log_query_throughput demoLog 1 5
      = ((window_bytes 1 5 demoLog : ℚ) / 1024) * 1000000
          / (((5 : Nat) : ℚ) - ((1 : Nat) : ℚ)) :=
  log_query_throughput_window_sum demoLog 1 5 (by unfold FinishSorted; decide)
    (by decide) (by decide)

/-- Claim C7 (failing input): the random benchmarks draw k uniformly from
the inclusive range [0, FLASH_SPACE / PAGE_SIZE] and use address
PAGE_SIZE * k, so the maximal draw k = 9830 yields the address FLASH_SPACE
itself, which is not strictly below the configured capacity; sequential
generation, in contrast, always stays page-aligned and strictly below
FLASH_SPACE. -/
theorem rnd_addr_at_capacity :
    addr_dist_hi = 9830 ∧
    rnd_addr addr_dist_hi = FLASH_SPACE ∧
    ¬ rnd_addr addr_dist_hi < FLASH_SPACE ∧
    (∀ n, seq_addr n < FLASH_SPACE ∧ seq_addr n % PAGE_SIZE = 0) := by
  refine ⟨by decide, by decide, by decide, ?_⟩
  intro n
  induction n with
  | zero => exact ⟨by decide, by decide⟩
  | succ m ih =>
    have hmod : seq_addr (m + 1) = (seq_addr m + PAGE_SIZE) % FLASH_SPACE :=
      rfl
    constructor
    · rw [hmod]
      exact Nat.mod_lt _ (by decide)
    · rw [hmod]
      have hdvd : PAGE_SIZE ∣ FLASH_SPACE := by decide
      have hdvd2 : PAGE_SIZE ∣ seq_addr m + PAGE_SIZE :=
        Nat.dvd_add (Nat.dvd_of_mod_eq_zero ih.2) dvd_rfl
      have hdvd3 : PAGE_SIZE ∣ (seq_addr m + PAGE_SIZE) % FLASH_SPACE :=
        (Nat.dvd_mod_iff hdvd).mpr hdvd2
      exact Nat.mod_eq_zero_of_dvd hdvd3

end LtBench

end FlashSimSpec

namespace FlashSimSpec

namespace Flashsim

/-- Claim C3: in the header-read step a read of exactly 0 bytes ends the
request loop normally (no fatal error), a read of any other byte count
different from the 24-byte header length raises a fatal error, and a full
24-byte read proceeds to validation. -/
theorem header_read_step_spec :
    header_read_step 0 = HeaderReadResult.closed ∧
    (∀ r : Int, r ≠ 0 → r ≠ 24 →
        header_read_step r = HeaderReadResult.fatal
          "request header wrong length") ∧
    header_read_step 24 = HeaderReadResult.proceed := by
  refine ⟨rfl, ?_, by decide⟩
  intro r h0 h24
  unfold header_read_step REQ_HEADER_LENGTH
  rw [if_neg h0, if_pos]
  intro hcontra
  exact h24 (by exact_mod_cast hcontra)

/-- Witness for C3 at the concrete read lengths 0, 7, and 24. -/
theorem header_read_step_spec_witness :
    header_read_step 0 = HeaderReadResult.closed ∧
    header_read_step 7 = HeaderReadResult.fatal "request header wrong length" ∧
    header_read_step 24 = HeaderReadResult.proceed :=
  ⟨header_read_step_spec.1,
   header_read_step_spec.2.1 7 (by decide) (by decide),
   header_read_step_spec.2.2⟩

/-- Claim C4: a received header whose size field is not > 0 or whose
address is not a multiple of the page size makes the dispatch loop raise a
fatal error before the device collaborator is invoked (fatal_pre); a
header passing both checks is dispatched to the collaborator (an
invocation is recorded, whatever the reported time). -/
theorem validate_before_dispatch (P : Nat) (ped : Bool) (h : ReqHeader)
    (t : ℚ) :
    ((¬ 0 < h.size ∨ ¬ h.addr % P = 0) →
        ∃ msg, request_step P ped h t = StepOutcome.fatal_pre msg) ∧
    (0 < h.size → h.addr % P = 0 →
        ∃ c, step_call (request_step P ped h t) = some c) := by
  constructor
  · intro hbad
    unfold request_step
    by_cases hs : h.size ≤ 0
    · rw [if_pos hs]
      exact ⟨_, rfl⟩
    · rcases hbad with hbad | hbad
      · omega
      · rw [if_neg hs, if_pos hbad]
        exact ⟨_, rfl⟩
  · intro hs ha
    unfold request_step
    rw [if_neg (by omega), if_neg (not_not_intro ha)]
    cases respond_timing t with
    | error msg => exact ⟨_, rfl⟩
    | ok v => exact ⟨_, rfl⟩

/-- Witness for C4: size 0 is rejected before dispatch; a valid header
(size 512, aligned address 4096) is dispatched. -/
theorem validate_before_dispatch_witness :
    (∃ msg, request_step 4096 true ⟨1, 4096, 0, 0⟩ 1
        = StepOutcome.fatal_pre msg) ∧
    (∃ c, step_call (request_step 4096 true ⟨0, 4096, 512, 0⟩ 1) = some c) :=
  ⟨(validate_before_dispatch 4096 true ⟨1, 4096, 0, 0⟩ 1).1
      (Or.inl (by decide)),
   (validate_before_dispatch 4096 true ⟨0, 4096, 512, 0⟩ 1).2
      (by decide) (by decide)⟩

/-- Claim C5 counterexample: with a reported processing time of 1/2000 ms
(half a microsecond, which is > 0), the timing step raises no fatal error
yet the 8-byte value written back to the peer is 0, refuting that the
written value is always > 0. -/
theorem respond_timing_zero_value_cex :
    (0 : ℚ) < 1 / 2000 ∧ respond_timing (1 / 2000) = Except.ok 0 := by
  constructor
  · norm_num
  · unfold respond_timing
    rw [if_neg (by norm_num)]
    norm_num

/-- Claim C5 amended: the timing step raises a fatal error iff the
collaborator-reported processing time is ≤ 0; when no error is raised the
8-byte value written back is the reported millisecond time truncated to
whole microseconds, which is > 0 whenever the time is at least one
microsecond (1/1000 ms) but can be 0 for smaller positive times. -/
theorem respond_timing_spec_amended (t : ℚ) :
    ((∃ msg, respond_timing t = Except.error msg) ↔ t ≤ 0) ∧
    (∀ v, respond_timing t = Except.ok v →
        v = (⌊t * 1000⌋).toNat ∧ (1 / 1000 ≤ t → 0 < v)) := by
  unfold respond_timing
  by_cases ht : t ≤ 0
  · rw [if_pos ht]
    refine ⟨⟨fun _ => ht, fun _ => ⟨_, rfl⟩⟩, ?_⟩
    intro v hv
    exact absurd hv (by simp)
  · rw [if_neg ht]
    constructor
    · constructor
      · rintro ⟨msg, hmsg⟩
        exact absurd hmsg (by simp)
      · intro h0
        exact absurd h0 ht
    · intro v hv
      have hv2 : v = (⌊t * 1000⌋).toNat := (Except.ok.inj hv).symm
      refine ⟨hv2, ?_⟩
      intro hge
      have hfl : (1 : ℤ) ≤ ⌊t * 1000⌋ := by
        apply Int.le_floor.mpr
        push_cast
        linarith
      omega

/-- Witness for C5's amended claim at reported time 1 ms: no fatal error,
and the written value 1000 µs is as described and positive. -/
theorem respond_timing_spec_amended_witness :
    respond_timing 1 = Except.ok 1000 ∧
    (1000 : Nat) = (⌊(1 : ℚ) * 1000⌋).toNat ∧ 0 < (1000 : Nat) := by
  have hok : respond_timing 1 = Except.ok 1000 := by
    unfold respond_timing
    rw [if_neg (by norm_num)]
    norm_num
    decide
  obtain ⟨hval, hpos⟩ := (respond_timing_spec_amended 1).2 1000 hok
  exact ⟨hok, hval, hpos (by norm_num)⟩

end Flashsim

end FlashSimSpec

namespace FlashSimSpec

namespace Flashsim

/-- Helper: the rounded buffer size is the least multiple of P that is at
least s. -/
theorem round_up_size_least (P s : Nat) (hP : 0 < P) (hs : 0 < s) :
    IsLeastPageMultiple P s (round_up_size P s) := by
  unfold IsLeastPageMultiple
  have hid : round_up_size P s = if s % P = 0 then s else s + P - s % P := by
    simp only [round_up_size]
  by_cases hr : s % P = 0
  · rw [hid, if_pos hr]
    exact ⟨Nat.dvd_of_mod_eq_zero hr, Nat.le_refl s, fun m _ hm => hm⟩
  · rw [hid, if_neg hr]
    have hqd := Nat.div_add_mod s P
    have hdP : s % P < P := Nat.mod_lt s hP
    have hr_eq : s + P - s % P = P * (s / P) + P := by
      generalize hgen : P * (s / P) = pq at hqd ⊢
      omega
    refine ⟨⟨s / P + 1, by rw [hr_eq]; ring⟩, by omega, ?_⟩
    intro m hdvd hm
    obtain ⟨k, hk⟩ := hdvd
    subst hk
    rw [hr_eq]
    rcases Nat.lt_or_ge (s / P) k with hqk | hqk
    · have h2 : P * (s / P + 1) ≤ P * k := Nat.mul_le_mul (Nat.le_refl P) hqk
      have h3 : P * (s / P) + P = P * (s / P + 1) := by ring
      rw [h3]
      exact h2
    · exfalso
      have h3 : P * k ≤ P * (s / P) := Nat.mul_le_mul (Nat.le_refl P) hqk
      generalize hg1 : P * (s / P) = pq at hqd h3
      generalize hg2 : P * k = pk at hm h3
      omega

/-- Helper: evaluation of a validated read iteration. -/
theorem request_step_eq_read (P : Nat) (ped : Bool) (h : ReqHeader) (t : ℚ)
    (hs : 0 < h.size) (ha : h.addr % P = 0) (hd : h.direction = DIR_READ) :
    request_step P ped h t =
      match respond_timing t with
      | Except.error msg =>
          StepOutcome.fatal_post
            ⟨Direction.read, h.addr / P, round_up_size P h.size / P, none⟩ msg
      | Except.ok v =>
          StepOutcome.done
            ⟨Direction.read, h.addr / P, round_up_size P h.size / P, none⟩
            ⟨if ped then some h.size else none, v⟩ := by
  unfold request_step
  rw [if_neg (by omega), if_neg (not_not_intro ha)]
  rcases hrt : respond_timing t with msg | v <;> simp [hrt, hd]

/-- Helper: evaluation of a validated write iteration (any nonzero
direction value). -/
theorem request_step_eq_write (P : Nat) (ped : Bool) (h : ReqHeader) (t : ℚ)
    (hs : 0 < h.size) (ha : h.addr % P = 0) (hd : ¬ h.direction = DIR_READ) :
    request_step P ped h t =
      match respond_timing t with
      | Except.error msg =>
          StepOutcome.fatal_post
            ⟨Direction.write, h.addr / P, round_up_size P h.size / P,
              if ped then some (round_up_size P h.size) else none⟩ msg
      | Except.ok v =>
          StepOutcome.done
            ⟨Direction.write, h.addr / P, round_up_size P h.size / P,
              if ped then some (round_up_size P h.size) else none⟩
            ⟨none, v⟩ := by
  unfold request_step
  rw [if_neg (by omega), if_neg (not_not_intro ha)]
  rcases hrt : respond_timing t with msg | v <;> simp [hrt, hd]

/-- Claim C8: with payload data enabled, for every validated write request
of size s the buffer handed to the device collaborator has length
round_up_size P s, the least multiple of the page size that is ≥ s (equal
to s when s is already a whole multiple); and for every validated read
request exactly s bytes — never the page-rounded length — are written
back to the peer as the payload response. -/
theorem payload_sizes_spec (P : Nat) (h : ReqHeader) (t : ℚ)
    (hP : 0 < P) (hs : 0 < h.size) (ha : h.addr % P = 0) :
    IsLeastPageMultiple P h.size (round_up_size P h.size) ∧
    (¬ h.direction = DIR_READ →
        ∃ c, step_call (request_step P true h t) = some c ∧
          c.buf_len = some (round_up_size P h.size)) ∧
    (h.direction = DIR_READ → 0 < t →
        ∃ c r, request_step P true h t = StepOutcome.done c r ∧
          r.payload_len = some h.size) := by
  refine ⟨round_up_size_least P h.size hP hs, ?_, ?_⟩
  · intro hdir
    rw [request_step_eq_write P true h t hs ha hdir]
    rcases hrt : respond_timing t with msg | v <;>
      exact ⟨_, rfl, by simp⟩
  · intro hdir ht
    have hok : respond_timing t = Except.ok (⌊t * 1000⌋).toNat := by
      unfold respond_timing
      rw [if_neg (not_le.mpr ht)]
    rw [request_step_eq_read P true h t hs ha hdir, hok]
    exact ⟨_, _, rfl, by simp⟩

/-- Witness for C8: a write of 5000 bytes hands the collaborator an
8192-byte buffer; a read of 5000 bytes responds with exactly 5000
payload bytes. -/
theorem payload_sizes_spec_witness :
    (∃ c, step_call (request_step 4096 true ⟨1, 8192, 5000, 0⟩ 1) = some c ∧
        c.buf_len = some (round_up_size 4096 5000)) ∧
    (∃ c r, request_step 4096 true ⟨0, 8192, 5000, 0⟩ 1
        = StepOutcome.done c r ∧ r.payload_len = some 5000) ∧
    round_up_size 4096 5000 = 8192 :=
  ⟨(payload_sizes_spec 4096 ⟨1, 8192, 5000, 0⟩ 1 (by decide) (by decide)
      (by decide)).2.1 (by decide),
   (payload_sizes_spec 4096 ⟨0, 8192, 5000, 0⟩ 1 (by decide) (by decide)
      (by decide)).2.2 (by decide) (by norm_num),
   by decide⟩

/-- Claim C10: the dispatch loop never validates the direction field: for
every validated header, a collaborator call is made whose direction is
read exactly when the header's direction equals 0 and write for every
nonzero direction value, no direction value raises a fatal error before
dispatch, and with a positive reported time the iteration completes. -/
theorem direction_not_validated (P : Nat) (ped : Bool) (h : ReqHeader)
    (t : ℚ) (hs : 0 < h.size) (ha : h.addr % P = 0) :
    ∃ c, step_call (request_step P ped h t) = some c ∧
      c.dir = (if h.direction = DIR_READ then Direction.read
               else Direction.write) ∧
      (∀ msg, request_step P ped h t ≠ StepOutcome.fatal_pre msg) ∧
      (0 < t → ∃ r, request_step P ped h t = StepOutcome.done c r) := by
  by_cases hd : h.direction = DIR_READ
  · have hc := request_step_eq_read P ped h t hs ha hd
    refine ⟨⟨Direction.read, h.addr / P, round_up_size P h.size / P, none⟩,
      ?_, by rw [if_pos hd], ?_, ?_⟩
    · rw [hc]
      rcases hrt : respond_timing t with msg | v <;> simp [hrt, step_call]
    · intro msg
      rw [hc]
      rcases hrt : respond_timing t with m2 | v <;> simp [hrt]
    · intro ht
      have hok : respond_timing t = Except.ok (⌊t * 1000⌋).toNat := by
        unfold respond_timing
        rw [if_neg (not_le.mpr ht)]
      rw [hc, hok]
      exact ⟨_, rfl⟩
  · have hc := request_step_eq_write P ped h t hs ha hd
    refine ⟨⟨Direction.write, h.addr / P, round_up_size P h.size / P,
      if ped then some (round_up_size P h.size) else none⟩,
      ?_, by rw [if_neg hd], ?_, ?_⟩
    · rw [hc]
      rcases hrt : respond_timing t with msg | v <;> simp [hrt, step_call]
    · intro msg
      rw [hc]
      rcases hrt : respond_timing t with m2 | v <;> simp [hrt]
    · intro ht
      have hok : respond_timing t = Except.ok (⌊t * 1000⌋).toNat := by
        unfold respond_timing
        rw [if_neg (not_le.mpr ht)]
      rw [hc, hok]
      exact ⟨_, rfl⟩

/-- Witness for C10 at the out-of-range direction value 7: the request is
processed as a write and no error is raised. -/
theorem direction_not_validated_witness :
    ∃ c, step_call (request_step 4096 true ⟨7, 0, 4096, 0⟩ 1) = some c ∧
      c.dir = (if (7 : Nat) = DIR_READ then Direction.read
               else Direction.write) ∧
      (∀ msg, request_step 4096 true ⟨7, 0, 4096, 0⟩ 1
          ≠ StepOutcome.fatal_pre msg) ∧
      (0 < (1 : ℚ) → ∃ r, request_step 4096 true ⟨7, 0, 4096, 0⟩ 1
          = StepOutcome.done c r) :=
  direction_not_validated 4096 true ⟨7, 0, 4096, 0⟩ 1 (by decide) (by decide)

end Flashsim

end FlashSimSpec
